import Mathlib

/-!
Shallow embedding of the rollout engine of a VLN (Vision-and-Language
Navigation) training agent (`agent.py`, class `Seq2SeqAgent`).

Tensors of floats are modelled as (nested) lists of rationals; machine
floats are modelled by exact rational arithmetic.  Batch-indexed numpy
arrays become lists indexed by item position; oracle data coming from
the environment or the neural network (distances, nDTW scores, model
actions, critic values) is passed in as explicit functions.
-/

namespace Agent

/-! ### Candidate Feature Builder (`_candidate_variable`) -/

/-- One observation as consumed by the candidate feature builder: the
ordered list of candidate feature vectors (each of length
`feature_size + angle_feat_size`). -/
structure CandObs where
  candidate : List (List ℚ)
deriving Inhabited, DecidableEq

/-- Per-item logical candidate length:
`candidate_leng = [len(ob.candidate) + 1 + t for ob in obs]`
(the `+1` is for the implicit end/stop slot). -/
def candidate_leng (t : ℕ) (obs : List CandObs) : List ℕ :=
  obs.map (fun ob => ob.candidate.length + 1 + t)

/-- The second dimension of the candidate feature tensor:
`max(candidate_leng)` over the batch. -/
def maxCandLeng (t : ℕ) (obs : List CandObs) : ℕ :=
  (candidate_leng t obs).foldr max 0

/-- An all-zero feature row, as produced by `np.zeros`. -/
def zeroRow (feature_size angle_feat_size : ℕ) : List ℚ :=
  List.replicate (feature_size + angle_feat_size) 0

/-- Row `r` of the candidate feature tensor for one batch item.
Mirrors the slice assignments of `_candidate_variable`:
for `t > 0`,
rows `< t-1` come verbatim from the visited-trajectory memory bank,
row `t-1` takes its first `feature_size` entries from the memory bank
and its last `angle_feat_size` entries from `input_a_t`,
and row `j + t` holds real candidate `j`; all other rows stay zero. -/
def candRow (feature_size angle_feat_size t : ℕ) (vis_taj : ℕ → List ℚ)
    (input_a_t : List ℚ) (cands : List (List ℚ)) (r : ℕ) : List ℚ :=
  if 0 < t ∧ r + 1 < t then vis_taj r
  else if 0 < t ∧ r + 1 = t then (vis_taj r).take feature_size ++ input_a_t
  else
    match cands.get? (r - t) with
    | some c => c
    | none => zeroRow feature_size angle_feat_size

/-- All rows of the candidate feature tensor for one batch item. -/
def candItemRows (feature_size angle_feat_size t maxLen : ℕ) (vis_taj : ℕ → List ℚ)
    (input_a_t : List ℚ) (cands : List (List ℚ)) : List (List ℚ) :=
  (List.range maxLen).map (candRow feature_size angle_feat_size t vis_taj input_a_t cands)

/-- Embedding of `Seq2SeqAgent._candidate_variable(obs, t, vis_taj, input_a_t)`:
returns the `[batch, maxCandLeng, feature_size+angle_feat_size]` feature
tensor together with `candidate_leng`.  `vis_taj i r` is row `r` of the
memory bank for item `i`; `input_a_t i` is the current action/angle
feature of item `i`. -/
def candidate_variable (feature_size angle_feat_size t : ℕ)
    (vis_taj : ℕ → ℕ → List ℚ) (input_a_t : ℕ → List ℚ)
    (obs : List CandObs) : List (List (List ℚ)) × List ℕ :=
  (obs.enum.map (fun p =>
      candItemRows feature_size angle_feat_size t (maxCandLeng t obs)
        (vis_taj p.1) (input_a_t p.1) p.2.candidate),
   candidate_leng t obs)

/-! ### Reward Shaper (rollout, per-item reward and mask) -/

/-- Per-item shaped reward and continuation mask, mirroring the reward
block of `rollout`.  Returns `(reward, mask)`; the zero-delta branch of
a non-stop move raises (`Except.error`), exactly as the source raises
`NameError`. -/
def stepReward (ended : Bool) (action_idx : ℤ)
    (dist last_dist ndtw_score last_ndtw : ℚ) : Except String (ℚ × ℚ) :=
  if ended then Except.ok (0, 0)
  else if action_idx = -1 then
    if dist < 3 then Except.ok (2 + ndtw_score * 2, 1)
    else Except.ok (-2, 1)
  else
    let base := -(dist - last_dist)
    let ndtw_reward := ndtw_score - last_ndtw
    let withPenalty : ℚ → ℚ := fun r =>
      if last_dist ≤ 1 ∧ dist - last_dist > 0 then r - (1 - last_dist) * 2 else r
    if base > 0 then Except.ok (withPenalty (1 + ndtw_reward), 1)
    else if base < 0 then Except.ok (withPenalty (-1 + ndtw_reward), 1)
    else Except.error "The action does not change the move"

/-! ### Teacher Oracle (`_teacher_action`) -/

/-- One observation as consumed by the teacher oracle: the candidate
viewpoint ids and the ground-truth next viewpoint. -/
structure TeacherObs where
  candidate : List String
  teacher : String
deriving Inhabited, DecidableEq

/-- The for/else scan of `_teacher_action`: index of the first candidate
whose viewpoint equals the teacher viewpoint, or the candidate count if
none matches (the stop slot). -/
def scanTeacher : List String → String → ℕ
  | [], _ => 0
  | c :: rest, teacher => if c = teacher then 0 else scanTeacher rest teacher + 1

/-- Embedding of `_teacher_action` for one batch item. -/
def teacher_action_item (ignoreid : ℤ) (ended : Bool) (ob : TeacherObs) : ℤ :=
  if ended then ignoreid
  else (scanTeacher ob.candidate ob.teacher : ℤ)

/-- Embedding of `_teacher_action` over a batch. -/
def teacher_action (ignoreid : ℤ) (obs : List TeacherObs) (ended : List Bool) :
    List ℤ :=
  obs.enum.map (fun p => teacher_action_item ignoreid (ended.getD p.1 false) p.2)

/-! ### Stop-action interpretation (rollout, lines 383-388) -/

/-- The per-item action conversion of `rollout`:
an index equal to `candidate_leng[i] - 1 - t`, the ignore id, or an
already-ended item all become `-1` (the stop sentinel); any other index
passes through unchanged. -/
def convert_action (ignoreid : ℤ) (t : ℕ) (candidate_leng_i : ℕ) (ended : Bool)
    (next_id : ℤ) : ℤ :=
  if next_id = (candidate_leng_i : ℤ) - 1 - t ∨ next_id = ignoreid ∨ ended then -1
  else next_id

/-- The per-item valid action-space sizes used for masking the logits:
`[l - t for l in candidate_leng]`. -/
def valid_action_space (t : ℕ) (obs : List CandObs) : List ℕ :=
  (candidate_leng t obs).map (fun l => l - t)

/-! ### Ended-flag update (rollout, lines 307 and 437) -/

/-- The ended flag of one item after `t` timesteps:
`ended = False` initially, then `ended[:] = ended or (cpu_a_t == -1)`
each step, where `cpu_a_t` is the converted action. -/
def ended_at (ignoreid : ℤ) (leng : ℕ → ℕ) (raw : ℕ → ℤ) : ℕ → Bool
  | 0 => false
  | t + 1 =>
      ended_at ignoreid leng raw t ||
        (convert_action ignoreid t (leng t) (ended_at ignoreid leng raw t) (raw t) == -1)

/-! ### Discounted-return recursion (rollout, lines 470-478) -/

/-- The backward discounted-return recursion of the A2C block:
starting from the bootstrap value, iterate
`discount_reward = discount_reward * gamma + rewards[t]`
from the last timestep down to the first. -/
def discount_reward (gamma : ℚ) (rewards : List ℚ) (init : ℚ) : ℚ :=
  rewards.foldr (fun r acc => acc * gamma + r) init

/-! ### Batch Preprocessor (`_sort_batch`)

Instruction encodings are rows of token ids; `padding_idx` marks padding.
`np.argmax(row == padding_idx)` returns the first index holding the
padding token, and `0` when no entry matches; indices equal to `0` are
then replaced by the full row width.  The subsequent
`seq_lengths.sort(0, True)` call carries no stability flag, so its only
contract is a descending order together with a permutation of the batch
indices; the relative order of equal lengths is implementation-defined
and therefore no sorting permutation is modelled here. -/

/-- `np.argmax(row == padding_idx)`: the first index where the padding
token occurs, or `0` when it does not occur. -/
def argmaxPad (padding_idx : ℕ) (row : List ℕ) : ℕ :=
  let i := row.findIdx (fun x => x == padding_idx)
  if i = row.length then 0 else i

/-- The computed sequence length of one instruction row:
`argmaxPad`, with `0` replaced by the row width. -/
def seq_length (padding_idx width : ℕ) (row : List ℕ) : ℕ :=
  let l := argmaxPad padding_idx row
  if l = 0 then width else l

/-- `seq_lengths` for a batch of equally wide instruction rows. -/
def seq_lengths (padding_idx : ℕ) (rows : List (List ℕ)) : List ℕ :=
  rows.map (fun r => seq_length padding_idx r.length r)

/-! ### Rollout Orchestrator (`rollout`)

The neural network and the simulator are abstracted as oracles:
`raw_action t i` is the action the policy emits for item `i` at
timestep `t` (teacher / argmax / sample all produce some integer),
`num_candidate t i` the item's real candidate count at `t`,
`dist t i` / `ndtw t i` the distance-to-goal / path-similarity of item
`i` once the actions of timesteps `< t` have been actuated,
`viewpoint t i` the viewpoint reached then, `value t i` the critic value
of the hidden state of timestep `t`, `log_prob t i` the policy
log-probability recorded at `t`, `entropy t i` the sampling
distribution entropy recorded at `t` (consumed only in sample mode),
and `last_value i` the critic bootstrap on the final hidden state.  The
loss terms that do not depend on the loop (`ml_loss`, the two
distillation losses) are oracle scalars. -/

/-- The feedback mode of the agent. -/
inductive Feedback where
  | teacher
  | argmax
  | sample
deriving DecidableEq

/-- Inputs and oracles of one `rollout` call. -/
structure RolloutInput where
  batch_size : ℕ
  episode_len : ℕ
  ignoreid : ℤ
  gamma : ℚ
  normalize_loss : String
  train_ml : Option ℚ
  train_dis_l : Option ℚ
  train_dis_c : Option ℚ
  raw_action : ℕ → ℕ → ℤ
  num_candidate : ℕ → ℕ → ℕ
  dist : ℕ → ℕ → ℚ
  ndtw : ℕ → ℕ → ℚ
  viewpoint : ℕ → ℕ → String
  value : ℕ → ℕ → ℚ
  log_prob : ℕ → ℕ → ℚ
  entropy : ℕ → ℕ → ℚ
  last_value : ℕ → ℚ
  ml_loss : ℚ
  dis_loss_l : ℚ
  dis_loss_c : ℚ

/-- Mutable episode state threaded through the timestep loop. -/
structure LoopState where
  ended : List Bool
  traj : List (List String)
  last_dist : List ℚ
  last_ndtw : List ℚ
  rewards : List (List ℚ)
  masks : List (List ℚ)
  steps_done : ℕ
deriving DecidableEq

/-- Sequence a batch of per-item reward computations, propagating the
first raised error. -/
def collectRewards : List (Except String (ℚ × ℚ)) → Except String (List ℚ × List ℚ)
  | [] => Except.ok ([], [])
  | x :: xs =>
    match x, collectRewards xs with
    | Except.error e, _ => Except.error e
    | Except.ok _, Except.error e => Except.error e
    | Except.ok (r, m), Except.ok (rs, ms) => Except.ok (r :: rs, m :: ms)

/-- One timestep of `rollout`: convert the raw actions, extend the
trajectories of moving items, (when reinforcement learning is on)
compute the shaped rewards and masks and refresh the distance /
similarity state, and update the ended flags. -/
def rollout_step (inp : RolloutInput) (train_rl : Bool) (t : ℕ) (s : LoopState) :
    Except String LoopState :=
  let acts := (List.range inp.batch_size).map (fun i =>
      convert_action inp.ignoreid t (inp.num_candidate t i + 1 + t)
        (s.ended.getD i false) (inp.raw_action t i))
  let traj2 := (List.range inp.batch_size).map (fun i =>
      if acts.getD i (-1) ≠ -1 then s.traj.getD i [] ++ [inp.viewpoint (t + 1) i]
      else s.traj.getD i [])
  let ended2 := (List.range inp.batch_size).map (fun i =>
      s.ended.getD i false || (acts.getD i (-1) == -1))
  if train_rl then
    match collectRewards ((List.range inp.batch_size).map (fun i =>
        stepReward (s.ended.getD i false) (acts.getD i (-1)) (inp.dist (t + 1) i)
          (s.last_dist.getD i 0) (inp.ndtw (t + 1) i) (s.last_ndtw.getD i 0))) with
    | Except.error e => Except.error e
    | Except.ok (rew, msk) =>
        Except.ok { ended := ended2, traj := traj2,
                    last_dist := (List.range inp.batch_size).map (fun i => inp.dist (t + 1) i),
                    last_ndtw := (List.range inp.batch_size).map (fun i => inp.ndtw (t + 1) i),
                    rewards := s.rewards ++ [rew], masks := s.masks ++ [msk],
                    steps_done := t }
  else
    Except.ok { s with ended := ended2, traj := traj2, steps_done := t }

/-- The timestep loop of `rollout`: run up to `episode_len` steps,
exiting early once every item has ended. -/
def rollout_loop (inp : RolloutInput) (train_rl : Bool) (t : ℕ) (s : LoopState) :
    Except String LoopState :=
  if _h : t < inp.episode_len then
    (rollout_step inp train_rl t s).bind (fun s2 =>
      if s2.ended.all (fun b => b) then Except.ok s2
      else rollout_loop inp train_rl (t + 1) s2)
  else Except.ok s
termination_by inp.episode_len - t
decreasing_by omega

/-- The per-item A2C summand of one timestep:
`-log_prob * advantage * mask + 0.5 * (return - value)^2 * mask`, plus
the entropy bonus `-0.01 * entropy * mask` when the feedback mode is
sample. -/
def rl_sum (is_sample : Bool) (logp_t values_t entropy_t dr mask : List ℚ) : ℚ :=
  ((List.range dr.length).map (fun i =>
      -(logp_t.getD i 0) * (dr.getD i 0 - values_t.getD i 0) * mask.getD i 0
      + (dr.getD i 0 - values_t.getD i 0) ^ 2 * mask.getD i 0 * (1 / 2))).sum
  + (if is_sample then
      ((List.range dr.length).map (fun i =>
          -(1 / 100) * entropy_t.getD i 0 * mask.getD i 0)).sum
    else 0)

/-- The backward A2C pass: fold the reward/mask history from the last
timestep to the first, accumulating the discounted return vector and
the reinforcement loss. -/
def rl_loss_pass (gamma : ℚ) (is_sample : Bool) (logp values entropy : ℕ → List ℚ)
    (steps : List (ℕ × List ℚ × List ℚ)) (dr0 : List ℚ) : ℚ :=
  (steps.foldr (fun step acc =>
      let dr := (acc.1).zipWith (fun d r => d * gamma + r) step.2.1
      (dr, acc.2 + rl_sum is_sample (logp step.1) (values step.1) (entropy step.1)
        dr step.2.2))
    (dr0, 0)).2

/-- The reinforcement-learning loss of one rollout: bootstrap the return
from the critic for unfinished items, run the backward pass (with the
entropy bonus in sample mode), and apply the configured normalization. -/
def rl_loss_total (inp : RolloutInput) (feedback : Feedback) (s : LoopState) : ℚ :=
  let dr0 := (List.range inp.batch_size).map (fun i =>
      if s.ended.getD i false then 0 else inp.last_value i)
  let steps := ((s.rewards.zip s.masks).enum).map (fun p => (p.1, p.2.1, p.2.2))
  let raw := rl_loss_pass inp.gamma (feedback == Feedback.sample)
      (fun t => (List.range inp.batch_size).map (inp.log_prob t))
      (fun t => (List.range inp.batch_size).map (inp.value t))
      (fun t => (List.range inp.batch_size).map (inp.entropy t)) steps dr0
  let total := (s.masks.map (fun m => m.sum)).sum
  if inp.normalize_loss = "total" then raw / total
  else if inp.normalize_loss = "batch" then raw / inp.batch_size
  else raw

/-- What one `rollout` call returns and accumulates. -/
structure RolloutResult where
  traj : List (List String)
  loss : ℚ
  rewards : List (List ℚ)
  masks : List (List ℚ)
deriving DecidableEq

/-- The fresh episode state of one `rollout` call: nothing ended,
trajectories seeded with the starting viewpoints, distance / similarity
state initialized from the first observations, empty logs. -/
def init_state (inp : RolloutInput) : LoopState :=
  { ended := List.replicate inp.batch_size false,
    traj := (List.range inp.batch_size).map (fun i => [inp.viewpoint 0 i]),
    last_dist := (List.range inp.batch_size).map (fun i => inp.dist 0 i),
    last_ndtw := (List.range inp.batch_size).map (fun i => inp.ndtw 0 i),
    rewards := [], masks := [], steps_done := 0 }

/-- The loss accumulation after the timestep loop: the A2C loss when
reinforcement learning is on, the weighted imitation loss, and the two
weighted distillation losses. -/
def finalize (inp : RolloutInput) (feedback : Feedback) (train_rl : Bool)
    (s : LoopState) : RolloutResult :=
  let rl := if train_rl then rl_loss_total inp feedback s else 0
  let ml := match inp.train_ml with
            | some w => inp.ml_loss * w / inp.batch_size
            | none => 0
  let dl := match inp.train_dis_l with
            | some w => inp.dis_loss_l * w
            | none => 0
  let dc := match inp.train_dis_c with
            | some w => inp.dis_loss_c * w
            | none => 0
  { traj := s.traj, loss := rl + ml + dl + dc,
    rewards := s.rewards, masks := s.masks }

/-- Embedding of `Seq2SeqAgent.rollout`: force `train_rl` off for the
teacher and argmax feedback modes, run the timestep loop from a fresh
episode state, and accumulate the loss terms. -/
def rollout (inp : RolloutInput) (feedback : Feedback) (train_rl : Bool) :
    Except String RolloutResult :=
  let train_rl := if feedback = Feedback.teacher ∨ feedback = Feedback.argmax then false
                  else train_rl
  (rollout_loop inp train_rl 0 (init_state inp)).map (finalize inp feedback train_rl)

/-! ## Theorems -/

/-- C9: the backward discounted-return recursion applied to the rewards
`[1.0, -1.0, 2.0]` with gamma `0.9`, zero bootstrap and no masking
yields exactly `1.72 = 43/25` after processing timestep 0. -/
theorem discounted_return_example :
    discount_reward (9 / 10) [1, -1, 2] 0 = 43 / 25 := by
  norm_num [discount_reward]

/-- C3: for a not-ended item whose chosen action is stop (`-1`), the
reward is `2.0 + 2.0 * path_similarity` when the distance-to-goal is
strictly below `3.0` and `-2.0` otherwise; the mask is `1`. -/
theorem stop_reward_spec (dist last_dist ndtw_score last_ndtw : ℚ) :
    (dist < 3 →
      stepReward false (-1) dist last_dist ndtw_score last_ndtw
        = Except.ok (2 + ndtw_score * 2, 1))
    ∧ (¬ dist < 3 →
      stepReward false (-1) dist last_dist ndtw_score last_ndtw
        = Except.ok (-2, 1)) := by
  constructor <;> intro h <;> simp [stepReward, h]

/-- Witness for C3: distance 2.0 with similarity 0.5 yields reward 3.0,
and distance 4.0 yields reward -2.0. -/
theorem stop_reward_spec_witness :
    stepReward false (-1) 2 5 (1 / 2) 0 = Except.ok (3, 1)
    ∧ stepReward false (-1) 4 5 (1 / 2) 0 = Except.ok (-2, 1) := by
  constructor
  · have h := (stop_reward_spec 2 5 (1 / 2) 0).1 (by norm_num)
    have h2 : (2 + (1 / 2 : ℚ) * 2) = 3 := by norm_num
    rw [h2] at h
    exact h
  · exact (stop_reward_spec 4 5 (1 / 2) 0).2 (by norm_num)

/-- C2 counterexample: with previous distance 5.0, current distance 3.0
and similarity delta 0.2, the base reward `-(3 - 5) = 2` is positive,
and the code returns `1.0 + 0.2 = 1.2` — not `-1.0 + 0.2` as the claim
(which reads a positive base as "moved farther") would require. -/
theorem move_reward_sign_counterexample :
    stepReward false 0 3 5 (2 / 10) 0 = Except.ok (12 / 10, 1)
    ∧ (12 / 10 : ℚ) ≠ -1 + (2 / 10 - 0) := by
  constructor
  · have hb : (0 : ℚ) < -(3 - 5 : ℚ) := by norm_num
    have hp : ¬ ((5 : ℚ) ≤ 1 ∧ (3 : ℚ) - 5 > 0) := by
      rintro ⟨h1, -⟩; norm_num at h1
    simp only [stepReward, if_neg (by decide : ¬ (0 : ℤ) = -1)]
    norm_num
  · norm_num

/-- C2 (amended): for a not-ended item taking a non-stop move with base
reward `base = -(dist - last_dist)`: if `base > 0` (the agent moved
closer) the reward is `1.0` plus the similarity delta, and if
`base < 0` (the agent moved farther) the reward is `-1.0` plus the
similarity delta, further reduced by `2*(1 - last_dist)` when the agent
had been within `1.0` of the goal. -/
theorem move_reward_spec (a : ℤ) (dist last_dist ndtw_score last_ndtw : ℚ)
    (ha : a ≠ -1) :
    (-(dist - last_dist) > 0 →
      stepReward false a dist last_dist ndtw_score last_ndtw
        = Except.ok (1 + (ndtw_score - last_ndtw), 1))
    ∧ (-(dist - last_dist) < 0 →
      stepReward false a dist last_dist ndtw_score last_ndtw
        = Except.ok ((if last_dist ≤ 1 then
            -1 + (ndtw_score - last_ndtw) - (1 - last_dist) * 2
          else -1 + (ndtw_score - last_ndtw)), 1)) := by
  constructor
  · intro hb
    have h1 : dist < last_dist := by linarith
    have h2 : ¬ (last_dist ≤ 1 ∧ last_dist < dist) := by
      rintro ⟨-, hc⟩; linarith
    simp [stepReward, ha, h1, h2]
  · intro hb
    have h1 : ¬ dist < last_dist := by linarith
    have h2 : last_dist < dist := by linarith
    by_cases hl : last_dist ≤ 1
    · simp [stepReward, ha, h1, h2, hl]
    · simp [stepReward, ha, h1, h2, hl]

/-- Witness for C2 (amended): previous distance 5.0, current distance
3.0, similarity delta 0.2 gives reward 1.2; previous distance 3.0,
current distance 5.0 gives reward -0.8. -/
theorem move_reward_spec_witness :
    stepReward false 0 3 5 (2 / 10) 0 = Except.ok (1 + (2 / 10 - 0), 1)
    ∧ stepReward false 0 5 3 (2 / 10) 0
        = Except.ok ((if (3 : ℚ) ≤ 1 then
            -1 + ((2 : ℚ) / 10 - 0) - (1 - 3) * 2
          else -1 + ((2 : ℚ) / 10 - 0)), 1) := by
  constructor
  · exact (move_reward_spec 0 3 5 (2 / 10) 0 (by decide)).1 (by norm_num)
  · exact (move_reward_spec 0 5 3 (2 / 10) 0 (by decide)).2 (by norm_num)

/-- C6: for a not-ended item taking a non-stop move, a distance after
actuation exactly equal to the distance before it makes the reward
computation raise (`Except.error`); any nonzero distance change
returns normally. -/
theorem zero_delta_move_fatal (a : ℤ) (dist last_dist ndtw_score last_ndtw : ℚ)
    (ha : a ≠ -1) :
    (dist = last_dist →
      stepReward false a dist last_dist ndtw_score last_ndtw
        = Except.error "The action does not change the move")
    ∧ (dist ≠ last_dist →
      ∃ p, stepReward false a dist last_dist ndtw_score last_ndtw
        = Except.ok p) := by
  constructor
  · intro hd
    subst hd
    simp [stepReward, ha]
  · intro hd
    rcases lt_or_gt_of_ne hd with hlt | hgt
    · have h2 : ¬ (last_dist ≤ 1 ∧ last_dist < dist) := by
        rintro ⟨-, hc⟩; linarith
      exact ⟨(1 + (ndtw_score - last_ndtw), 1), by simp [stepReward, ha, hlt, h2]⟩
    · have h1 : ¬ dist < last_dist := by linarith
      by_cases hl : last_dist ≤ 1
      · exact ⟨(-1 + (ndtw_score - last_ndtw) - (1 - last_dist) * 2, 1),
          by simp [stepReward, ha, h1, hgt, hl]⟩
      · exact ⟨(-1 + (ndtw_score - last_ndtw), 1),
          by simp [stepReward, ha, h1, hgt, hl]⟩

/-- Witness for C6: a move from distance 4.0 to distance 4.0 raises;
a move from 5.0 to 3.0 returns normally. -/
theorem zero_delta_move_fatal_witness :
    stepReward false 0 4 4 0 0 = Except.error "The action does not change the move"
    ∧ ∃ p, stepReward false 0 3 5 0 0 = Except.ok p :=
  ⟨(zero_delta_move_fatal 0 4 4 0 0 (by decide)).1 rfl,
   (zero_delta_move_fatal 0 3 5 0 0 (by decide)).2 (by norm_num)⟩

/-- The for/else scan returns the candidate count when no candidate
viewpoint matches the teacher viewpoint. -/
theorem scanTeacher_of_no_match (cands : List String) (teacher : String)
    (h : ∀ c ∈ cands, c ≠ teacher) : scanTeacher cands teacher = cands.length := by
  induction cands with
  | nil => rfl
  | cons c rest ih =>
      simp only [scanTeacher]
      rw [if_neg (h c (by simp))]
      simp [ih (fun x hx => h x (by simp [hx]))]

/-- The for/else scan returns the index of the first matching candidate. -/
theorem scanTeacher_first_match (cands : List String) (teacher : String) (k : ℕ)
    (hkl : k < cands.length) (hk : cands.getD k "" = teacher)
    (hprev : ∀ j, j < k → cands.getD j "" ≠ teacher) :
    scanTeacher cands teacher = k := by
  induction cands generalizing k with
  | nil => simp at hkl
  | cons c rest ih =>
      cases k with
      | zero =>
          simp only [scanTeacher]
          rw [if_pos (by simpa using hk)]
      | succ k =>
          simp only [scanTeacher]
          rw [if_neg (by have := hprev 0 (by omega); simpa using this)]
          have hrec := ih k (by simpa using hkl) (by simpa using hk)
            (fun j hj => by have := hprev (j + 1) (by omega); simpa using this)
          omega

/-- Index lemma: entry `i` of the teacher-action batch is the item-level
teacher action of observation `i`. -/
theorem teacher_action_getD (ignoreid : ℤ) (obs : List TeacherObs)
    (ended : List Bool) (i : ℕ) (hi : i < obs.length) :
    (teacher_action ignoreid obs ended).getD i 0
      = teacher_action_item ignoreid (ended.getD i false) (obs.getD i default) := by
  unfold teacher_action
  rw [List.getD_eq_getElem _ _ (by simpa using hi), List.getElem_map,
      List.getElem_enum, List.getD_eq_getElem _ _ hi]

/-- C4: for an ended item the teacher action is the ignore sentinel; for
a live item it is the index of the first candidate whose viewpoint
equals the precomputed next-step viewpoint, and the stop index
(= candidate count) when no candidate matches. -/
theorem teacher_action_spec (ignoreid : ℤ) (obs : List TeacherObs)
    (ended : List Bool) (i : ℕ) (hi : i < obs.length) :
    (ended.getD i false = true →
      (teacher_action ignoreid obs ended).getD i 0 = ignoreid)
    ∧ (∀ k, ended.getD i false = false →
        k < (obs.getD i default).candidate.length →
        (obs.getD i default).candidate.getD k "" = (obs.getD i default).teacher →
        (∀ j, j < k →
          (obs.getD i default).candidate.getD j "" ≠ (obs.getD i default).teacher) →
        (teacher_action ignoreid obs ended).getD i 0 = k)
    ∧ (ended.getD i false = false →
        (∀ c ∈ (obs.getD i default).candidate, c ≠ (obs.getD i default).teacher) →
        (teacher_action ignoreid obs ended).getD i 0
          = (obs.getD i default).candidate.length) := by
  refine ⟨fun he => ?_, fun k he hkl hk hprev => ?_, fun he hno => ?_⟩
  · rw [teacher_action_getD ignoreid obs ended i hi]
    simp only [teacher_action_item]
    rw [he]
    simp
  · rw [teacher_action_getD ignoreid obs ended i hi]
    simp only [teacher_action_item]
    rw [he, if_neg (by decide), scanTeacher_first_match _ _ k hkl hk hprev]
  · rw [teacher_action_getD ignoreid obs ended i hi]
    simp only [teacher_action_item]
    rw [he, if_neg (by decide), scanTeacher_of_no_match _ _ hno]

/-- Witness for C4: with 3 candidates where candidate 1 matches the
teacher viewpoint the action is 1; with no match it is 3; an ended item
gets the ignore sentinel. -/
theorem teacher_action_spec_witness :
    (teacher_action (-100) [⟨["a", "b", "c"], "b"⟩] [true]).getD 0 0 = -100
    ∧ (teacher_action (-100) [⟨["a", "b", "c"], "b"⟩] [false]).getD 0 0 = 1
    ∧ (teacher_action (-100) [⟨["a", "b", "c"], "z"⟩] [false]).getD 0 0 = 3 := by
  refine ⟨?_, ?_, ?_⟩
  · exact (teacher_action_spec (-100) [⟨["a", "b", "c"], "b"⟩] [true] 0
      (by decide)).1 (by decide)
  · exact (teacher_action_spec (-100) [⟨["a", "b", "c"], "b"⟩] [false] 0
      (by decide)).2.1 1 (by decide) (by decide) (by decide)
      (by decide)
  · exact (teacher_action_spec (-100) [⟨["a", "b", "c"], "z"⟩] [false] 0
      (by decide)).2.2 (by decide) (by decide)

/-- Index lemma: entry `i` of `candidate_leng` is the candidate count of
item `i` plus `1 + t`. -/
theorem candidate_leng_getD (t : ℕ) (obs : List CandObs) (i : ℕ)
    (hi : i < obs.length) :
    (candidate_leng t obs).getD i 0
      = (obs.getD i default).candidate.length + 1 + t := by
  unfold candidate_leng
  rw [List.getD_eq_getElem _ _ (by simpa using hi), List.getElem_map,
      List.getD_eq_getElem _ _ hi]

/-- C5: at timestep `t` the valid action-index space of item `i` has
size `(real candidate count) + 1`, and a chosen action index equal to
the real candidate count (the final slot, holding the implicit stop) is
converted to `-1` before actuation. -/
theorem stop_slot_spec (t : ℕ) (obs : List CandObs) (i : ℕ)
    (hi : i < obs.length) (ignoreid : ℤ) (e : Bool) :
    (valid_action_space t obs).getD i 0
        = (obs.getD i default).candidate.length + 1
    ∧ convert_action ignoreid t ((candidate_leng t obs).getD i 0) e
        ((obs.getD i default).candidate.length : ℤ) = -1 := by
  constructor
  · have hi2 : i < (candidate_leng t obs).length := by
      simpa [candidate_leng] using hi
    unfold valid_action_space
    rw [List.getD_eq_getElem _ _ (by simpa [valid_action_space, candidate_leng] using hi),
        List.getElem_map, ← List.getD_eq_getElem (candidate_leng t obs) 0 hi2,
        candidate_leng_getD t obs i hi]
    omega
  · rw [candidate_leng_getD t obs i hi]
    unfold convert_action
    rw [if_pos]
    left
    push_cast
    ring

/-- Witness for C5: one item with two real candidates at timestep 3 has
action space of size 3, and raw action index 2 becomes `-1`. -/
theorem stop_slot_spec_witness :
    (valid_action_space 3 [⟨[[1], [2]]⟩]).getD 0 0 = 3
    ∧ convert_action (-100) 3 ((candidate_leng 3 [⟨[[1], [2]]⟩]).getD 0 0) false 2 = -1 := by
  have h := stop_slot_spec 3 [⟨[[1], [2]]⟩] 0 (by decide) (-100) false
  exact ⟨h.1, h.2⟩

/-- C7: the per-item ended flag is monotone non-decreasing across the
timesteps of one rollout episode. -/
theorem ended_monotone (ignoreid : ℤ) (leng : ℕ → ℕ) (raw : ℕ → ℤ) (t u : ℕ)
    (htu : t ≤ u) (h : ended_at ignoreid leng raw t = true) :
    ended_at ignoreid leng raw u = true := by
  induction u with
  | zero =>
      have ht : t = 0 := by omega
      rw [ht] at h
      exact h
  | succ u ih =>
      by_cases he : t = u + 1
      · rw [he] at h
        exact h
      · have hu : ended_at ignoreid leng raw u = true := ih (by omega)
        simp [ended_at, hu]

/-- Witness for C7: an item ended at timestep 1 is still ended at
timestep 3. -/
theorem ended_monotone_witness :
    ended_at (-100) (fun _ => 1) (fun _ => -1) 1 = true
    ∧ ended_at (-100) (fun _ => 1) (fun _ => -1) 3 = true :=
  ⟨by decide, ended_monotone (-100) (fun _ => 1) (fun _ => -1) 1 3 (by omega) (by decide)⟩

/-- Every member of a list of naturals is bounded by its folded maximum. -/
theorem le_foldr_max (l : List ℕ) (x : ℕ) (hx : x ∈ l) : x ≤ l.foldr max 0 := by
  induction l with
  | nil => simp at hx
  | cons a l ih =>
      rcases List.mem_cons.mp hx with hx | hx
      · simp [hx, le_max_iff]
      · simp only [List.foldr_cons, le_max_iff]
        exact Or.inr (ih hx)

/-- Entry `i` of `candidate_leng` is bounded by `maxCandLeng`. -/
theorem candidate_leng_le_max (t : ℕ) (obs : List CandObs) (i : ℕ)
    (hi : i < obs.length) :
    (obs.getD i default).candidate.length + 1 + t ≤ maxCandLeng t obs := by
  apply le_foldr_max
  rw [← candidate_leng_getD t obs i hi,
      List.getD_eq_getElem _ _ (by simpa [candidate_leng] using hi)]
  exact List.getElem_mem _

/-- Row `r` of the feature tensor of item `i` is `candRow` applied to
the memory bank, action feature and candidate list of item `i`. -/
theorem candidate_variable_row (fs as t : ℕ) (vt : ℕ → ℕ → List ℚ)
    (ia : ℕ → List ℚ) (obs : List CandObs) (i r : ℕ)
    (hi : i < obs.length) (hr : r < maxCandLeng t obs) :
    ((candidate_variable fs as t vt ia obs).1.getD i []).getD r []
      = candRow fs as t (vt i) (ia i) ((obs.getD i default).candidate) r := by
  have hobsq : obs[i]? = some (obs.getD i default) := by
    rw [List.getD_eq_getElem obs default hi]
    exact List.getElem?_eq_getElem hi
  unfold candidate_variable candItemRows
  simp only [List.getD_eq_getElem?_getD, List.getElem?_map, List.getElem?_enum]
  rw [hobsq]
  simp [List.getElem?_range hr]

/-- Concrete memory bank used to refute the verbatim-copy claim. -/
def exVisTaj : ℕ → ℕ → List ℚ := fun _ r =>
  if r = 0 then [1, 2] else if r = 1 then [3, 4] else [0, 0]

/-- Concrete current-action angle feature. -/
def exInputA : ℕ → List ℚ := fun _ => [5]

/-- Concrete one-item batch with a single real candidate. -/
def exObs : List CandObs := [⟨[[7, 8]]⟩]

/-- C1 counterexample: with feature size 1, angle size 1 and `t = 2`,
row 1 of the built tensor is `[3, 5]` (memory-bank visual part plus the
current `input_a_t` angle part), not the memory bank row `[3, 4]` — so
the first `t` rows are not all copied verbatim. -/
theorem candidate_rows_not_verbatim :
    ¬ (∀ r, r < 2 →
      ((candidate_variable 1 1 2 exVisTaj exInputA exObs).1.getD 0 []).getD r []
        = exVisTaj 0 r) := by
  intro h
  have h1 := h 1 (by omega)
  have h2 : ((candidate_variable 1 1 2 exVisTaj exInputA exObs).1.getD 0 []).getD 1 []
      = [3, 5] := by decide
  rw [h2] at h1
  have : (4 : ℚ) = 5 := by
    have := congrArg (fun l => l.getD 1 0) h1
    simpa [exVisTaj] using this.symm
  norm_num at this

/-- C1 (amended): for `t > 0`, rows `0 .. t-2` of the candidate feature
tensor are copied verbatim from the Memory Bank; row `t-1` takes its
first `feature_size` entries from the Memory Bank row `t-1` and its
trailing entries from the current action feature `input_a_t`; and real
candidate `j` fills row `j + t`. -/
theorem candidate_feature_rows (fs as t : ℕ) (vt : ℕ → ℕ → List ℚ)
    (ia : ℕ → List ℚ) (obs : List CandObs) (i : ℕ)
    (hi : i < obs.length) (ht : 0 < t) :
    (∀ r, r + 1 < t →
      ((candidate_variable fs as t vt ia obs).1.getD i []).getD r [] = vt i r)
    ∧ ((candidate_variable fs as t vt ia obs).1.getD i []).getD (t - 1) []
        = (vt i (t - 1)).take fs ++ ia i
    ∧ ∀ j c, (obs.getD i default).candidate.get? j = some c →
        ((candidate_variable fs as t vt ia obs).1.getD i []).getD (j + t) [] = c := by
  have hmax := candidate_leng_le_max t obs i hi
  refine ⟨fun r hr => ?_, ?_, fun j c hj => ?_⟩
  · rw [candidate_variable_row fs as t vt ia obs i r hi (by omega)]
    unfold candRow
    rw [if_pos ⟨ht, hr⟩]
  · rw [candidate_variable_row fs as t vt ia obs i (t - 1) hi (by omega)]
    unfold candRow
    rw [if_neg (by omega), if_pos ⟨ht, by omega⟩]
  · have hjl : j < (obs.getD i default).candidate.length := by
      rcases List.get?_eq_some.mp hj with ⟨hlt, -⟩
      exact hlt
    rw [candidate_variable_row fs as t vt ia obs i (j + t) hi (by omega)]
    unfold candRow
    rw [if_neg (by omega), if_neg (by omega)]
    have : j + t - t = j := by omega
    rw [this, hj]

/-- Witness for C1 (amended): at `t = 2`, row 0 is the memory bank row 0,
row 1 combines the memory bank visual part with the action feature, and
real candidate 0 sits at row 2. -/
theorem candidate_feature_rows_witness :
    ((candidate_variable 1 1 2 exVisTaj exInputA exObs).1.getD 0 []).getD 0 []
        = exVisTaj 0 0
    ∧ ((candidate_variable 1 1 2 exVisTaj exInputA exObs).1.getD 0 []).getD 1 []
        = (exVisTaj 0 1).take 1 ++ exInputA 0
    ∧ ((candidate_variable 1 1 2 exVisTaj exInputA exObs).1.getD 0 []).getD 2 []
        = [7, 8] := by
  have h := candidate_feature_rows 1 1 2 exVisTaj exInputA exObs 0 (by decide) (by decide)
  exact ⟨h.1 0 (by omega), h.2.1, h.2.2 0 [7, 8] (by decide)⟩

/-- With reinforcement learning off, one rollout timestep succeeds and
leaves the reward and mask logs untouched. -/
theorem rollout_step_no_rl (inp : RolloutInput) (t : ℕ) (s : LoopState) :
    ∃ s2, rollout_step inp false t s = Except.ok s2
      ∧ s2.rewards = s.rewards ∧ s2.masks = s.masks :=
  ⟨_, rfl, rfl, rfl⟩

/-- With reinforcement learning off, the whole rollout loop leaves the
reward and mask logs untouched. -/
theorem rollout_loop_no_rl (inp : RolloutInput) :
    ∀ (n t : ℕ), inp.episode_len - t ≤ n → ∀ (s s2 : LoopState),
      rollout_loop inp false t s = Except.ok s2 →
      s2.rewards = s.rewards ∧ s2.masks = s.masks := by
  intro n
  induction n with
  | zero =>
      intro t hn s s2 h
      rw [rollout_loop, dif_neg (by omega)] at h
      cases h
      exact ⟨rfl, rfl⟩
  | succ n ih =>
      intro t hn s s2 h
      rw [rollout_loop] at h
      by_cases ht : t < inp.episode_len
      · rw [dif_pos ht] at h
        obtain ⟨s3, hstep, hr, hm⟩ := rollout_step_no_rl inp t s
        rw [hstep] at h
        simp only [Except.bind] at h
        by_cases hall : s3.ended.all (fun b => b)
        · rw [if_pos hall] at h
          cases h
          exact ⟨hr, hm⟩
        · rw [if_neg hall] at h
          have hrec := ih (t + 1) (by omega) s3 s2 h
          exact ⟨hrec.1.trans hr, hrec.2.trans hm⟩
      · rw [dif_neg ht] at h
        cases h
        exact ⟨rfl, rfl⟩

/-- C10: in the teacher and argmax feedback modes `rollout` forces
`train_rl` off at entry, so a call with `train_rl = true` returns
exactly what the same call with `train_rl = false` returns, and the
reward and mask logs of its result are empty. -/
theorem rollout_train_rl_forced (inp : RolloutInput) (fb : Feedback) (tr : Bool)
    (hfb : fb = Feedback.teacher ∨ fb = Feedback.argmax) :
    rollout inp fb tr = rollout inp fb false
    ∧ ∀ res, rollout inp fb tr = Except.ok res →
        res.rewards = [] ∧ res.masks = [] := by
  have hforce : (if fb = Feedback.teacher ∨ fb = Feedback.argmax then false else tr)
      = false := if_pos hfb
  constructor
  · unfold rollout
    rw [hforce, if_pos hfb]
  · intro res hres
    have hres2 : (rollout_loop inp false 0 (init_state inp)).map (finalize inp fb false)
        = Except.ok res := by
      rw [← hforce]
      exact hres
    rcases hloop : rollout_loop inp false 0 (init_state inp) with he | hs
    · rw [hloop] at hres2
      simp [Except.map] at hres2
    · rw [hloop] at hres2
      simp only [Except.map] at hres2
      have hlogs := rollout_loop_no_rl inp inp.episode_len 0 (by omega) _ _ hloop
      have hfin : finalize inp fb false hs = res := by
        injection hres2
      rw [← hfin]
      simp only [finalize]
      rw [hlogs.1, hlogs.2]
      exact ⟨rfl, rfl⟩

/-- Concrete rollout inputs for the C10 witness. -/
def exRollInput : RolloutInput where
  batch_size := 1
  episode_len := 2
  ignoreid := -100
  gamma := 9 / 10
  normalize_loss := "batch"
  train_ml := some 1
  train_dis_l := none
  train_dis_c := none
  raw_action := fun _ _ => 0
  num_candidate := fun _ _ => 1
  dist := fun t _ => 5 - t
  ndtw := fun _ _ => 0
  viewpoint := fun _ _ => "v"
  value := fun _ _ => 0
  log_prob := fun _ _ => 0
  entropy := fun _ _ => 0
  last_value := fun _ => 0
  ml_loss := 1
  dis_loss_l := 0
  dis_loss_c := 0

/-- Witness for C10: on a concrete one-item episode in teacher mode, the
rollout with `train_rl = true` equals the rollout with
`train_rl = false`. -/
theorem rollout_train_rl_forced_witness :
    rollout exRollInput Feedback.teacher true
      = rollout exRollInput Feedback.teacher false :=
  (rollout_train_rl_forced exRollInput Feedback.teacher true (Or.inl rfl)).1

end Agent
